import Mathlib

/-!
Verification development for the CKD prediction service.

Part A embeds the ensemble-consensus logic of
src/backend/api/routes/prediction.py: the single-model predict route
(label, probability, confidence) and the predict/ensemble route
(majority vote over the loaded models, agreement ratio, average
confidence, unanimity flag).

Part B embeds the Flask backend src/PhysiCKD/backend/app.py: the
startup comparison-statistics computation over the reference dataset
(mean, median, std, min, max for continuous features; mode, min, max
for categorical ones, split by diagnosis) and the predict endpoint
(feature-presence check, model invocation, comparison data assembly).

Numeric values are modelled as rationals.  Where the Python code stores
a standard deviation (a square root, generally irrational) the
embedding stores its square, so every field stays in ℚ and remains
exactly computable; equality of the stored std fields is equivalent to
equality of the squares since both are square roots of nonnegative
rationals.  Python dictionaries keyed by feature name are modelled as
association lists in the fixed iteration order of the source.  The
iteration order of a Python set is hash-dependent and unspecified, so
the embedding passes the enumeration order of set(predictions_list) as
an explicit parameter constrained to be a permutation of the distinct
labels.
-/

namespace CKD

/-- Result of Python max(iterable, key) over a list enumerated in a fixed
order: the first element attaining the maximal key (max keeps the current
element unless a strictly greater key appears). -/
def pyMaxStep {α : Type} (key : α → Nat) (acc x : α) : α :=
  if key x > key acc then x else acc

/-- Python max(l, key) for a nonempty enumeration l, none on the empty one. -/
def pyMax {α : Type} (key : α → Nat) : List α → Option α
  | [] => none
  | x :: xs => some (xs.foldl (pyMaxStep key) x)

/-- Scikit-learn model as consumed by the predict route of
src/backend/api/routes/prediction.py: model.predict(X)[0] gives the
numeric class, and model.predict_proba(X)[0] gives the class
probabilities when the model exposes predict_proba (proba = none embeds
a model without that attribute). -/
structure SkModel where
  predictOut : Nat
  proba : Option (List ℚ)

/-- PredictionResponse of prediction.py, restricted to the fields the
ensemble logic reads: prediction label, numeric class, probability pair
(notckd, ckd) and confidence. -/
structure PredictionResponse where
  prediction : String
  prediction_numeric : Nat
  probability : Option (ℚ × ℚ)
  confidence : ℚ
deriving DecidableEq

/-- Embeds the body of the predict route (lines 171-186 of
prediction.py): prediction = model.predict(X)[0]; label is ckd when the
class is 1, otherwise notckd; with predict_proba the probability dict is
built from proba[0] and proba[1] and confidence = proba[prediction];
without predict_proba the probability stays None and confidence is 1.0. -/
def predictOne (m : SkModel) : PredictionResponse :=
  let p := m.predictOut
  let label := if p = 1 then "ckd" else "notckd"
  match m.proba with
  | some pr =>
      { prediction := label, prediction_numeric := p,
        probability := some (pr.getD 0 0, pr.getD 1 0),
        confidence := pr.getD p 0 }
  | none =>
      { prediction := label, prediction_numeric := p,
        probability := none, confidence := 1 }

/-- Consensus dictionary built by predict_ensemble (lines 268-284 of
prediction.py).  The agreement string "k/n models" is kept as the pair
(consensus_count, total). -/
structure ConsensusResult where
  prediction : Option String
  consensus_count : Nat
  total : Nat
  consensus_confidence : ℚ
  average_model_confidence : ℚ
  unanimous : Bool

/-- Enumeration orders a Python set over the given labels may present:
any permutation of the distinct labels (hash-dependent, unspecified by
the language). -/
abbrev ValidSetOrder (labels ord : List String) : Prop :=
  ord.Perm labels.dedup

/-- Consensus computation of predict_ensemble: consensus_pred =
max(set(predictions_list), key=predictions_list.count) with setOrder the
enumeration order of the set; consensus_count its vote count;
consensus_confidence = consensus_count / len(predictions_list);
average_model_confidence = sum(confidences) / len(confidences);
unanimous iff consensus_count equals the total. -/
def consensusOf (setOrder : List String) (preds : List PredictionResponse) :
    ConsensusResult :=
  let predictions_list := preds.map (fun p => p.prediction)
  let consensus_pred := pyMax (fun s => predictions_list.count s) setOrder
  let consensus_count :=
    match consensus_pred with
    | some c => predictions_list.count c
    | none => 0
  let confidences := preds.map (fun p => p.confidence)
  { prediction := consensus_pred,
    consensus_count := consensus_count,
    total := predictions_list.length,
    consensus_confidence := (consensus_count : ℚ) / (predictions_list.length : ℚ),
    average_model_confidence := confidences.sum / (confidences.length : ℚ),
    unanimous := consensus_count == predictions_list.length }

/-- HTTPException as raised by the FastAPI routes. -/
structure HTTPError where
  status : Nat
  detail : String
deriving DecidableEq

/-- Embeds the predict/ensemble route: with no models loaded it raises
HTTPException(503, "No models available") before anything else;
otherwise it collects predictOne over the models in dict-iteration
(insertion) order and computes the consensus. -/
def predict_ensemble (setOrder : List String)
    (models : List (String × SkModel)) :
    Except HTTPError (List (String × PredictionResponse) × ConsensusResult) :=
  if models.isEmpty then
    .error { status := 503, detail := "No models available" }
  else
    let individual := models.map (fun nm => (nm.1, predictOne nm.2))
    .ok (individual, consensusOf setOrder (individual.map (fun nm => nm.2)))

/-! Part B: the Flask backend src/PhysiCKD/backend/app.py. -/

/-- Feature names checked and iterated by app.py. -/
def feature_names : List String :=
  [ "hemo", "sg", "sc", "rbcc", "pcv", "htn", "dm", "bp", "age" ]

/-- Features treated as categorical by app.py. -/
def categorical_features : List String := [ "dm", "htn", "sg" ]

/-- Row of the reference dataset: the status column plus a value for
each feature column. -/
structure Row where
  status : String
  val : String → ℚ

/-- The derived ckd_status column: 1 when status equals ckd, else 0. -/
def ckd_status (r : Row) : Nat := if r.status = "ckd" then 1 else 0

/-- Series of one feature over one diagnosis partition:
dataset[dataset.ckd_status == cls][feature], in dataset row order. -/
def partitionVals (ds : List Row) (cls : Nat) (f : String) : List ℚ :=
  (ds.filter (fun r => ckd_status r == cls)).map (fun r => r.val f)

/-- Pandas Series.mean: sum divided by length. -/
def pandasMean (l : List ℚ) : ℚ := l.sum / (l.length : ℚ)

/-- Sum of squared deviations from a center c. -/
def sqDevSum (l : List ℚ) (c : ℚ) : ℚ := (l.map (fun x => (x - c) ^ 2)).sum

/-- Pandas Series.var with the given ddof: sum of squared deviations
from the mean divided by (n - ddof).  Series.std is its square root;
the embedding keeps the square. -/
def pandasVar (ddof : Nat) (l : List ℚ) : ℚ :=
  sqDevSum l (pandasMean l) / ((l.length : ℚ) - (ddof : ℚ))

/-- Square of pandas Series.std() as called at line 74 of app.py: the
default ddof is 1, the sample variance with divisor n - 1. -/
def pandasStdSq (l : List ℚ) : ℚ := pandasVar 1 l

/-- Pandas Series.median: middle element of the sorted values, or the
average of the two middle elements for an even count. -/
def pandasMedian (l : List ℚ) : ℚ :=
  let s := List.insertionSort (· ≤ ·) l
  let n := s.length
  if n % 2 = 1 then s.getD (n / 2) 0
  else (s.getD (n / 2 - 1) 0 + s.getD (n / 2) 0) / 2

/-- Highest frequency among the distinct values of l. -/
def maxCount (l : List ℚ) : Nat :=
  (l.dedup.map (fun x => l.count x)).foldl max 0

/-- Pandas Series.mode: the values attaining the highest frequency,
returned in ascending sorted order. -/
def pandasMode (l : List ℚ) : List ℚ :=
  List.insertionSort (· ≤ ·)
    (l.dedup.filter (fun x => l.count x == maxCount l))

/-- Pandas Series.min over the series values, none for an empty series. -/
def seriesMin : List ℚ → Option ℚ
  | [] => none
  | x :: xs => some (xs.foldl min x)

/-- Pandas Series.max over the series values, none for an empty series. -/
def seriesMax : List ℚ → Option ℚ
  | [] => none
  | x :: xs => some (xs.foldl max x)

/-- Per-(feature, class) statistics record of app.py lines 50-87.
Fields absent in the respective branch are None.  stdSq stores the
square of the std field; vmin and vmax embed the min and max fields. -/
structure ClassStats where
  mode : Option ℚ
  mean : Option ℚ
  median : Option ℚ
  stdSq : Option ℚ
  vmin : Option ℚ
  vmax : Option ℚ
deriving DecidableEq

/-- Statistics for one value series: the categorical branch stores
mode().iloc[0] (when the mode list is nonempty) plus min and max; the
continuous branch stores mean, median, std (squared here), min, max. -/
def statsOfVals (isCat : Bool) (l : List ℚ) : ClassStats :=
  if isCat then
    { mode := (pandasMode l).head?, mean := none, median := none,
      stdSq := none, vmin := seriesMin l, vmax := seriesMax l }
  else
    { mode := none, mean := some (pandasMean l),
      median := some (pandasMedian l), stdSq := some (pandasStdSq l),
      vmin := seriesMin l, vmax := seriesMax l }

/-- Both class entries of comparison_stats[feature]. -/
structure FeatureStats where
  ckd : ClassStats
  notckd : ClassStats
deriving DecidableEq

/-- Entry of comparison_stats for one feature: computed only when the
feature is among the dataset columns, on the two diagnosis partitions,
with the categorical branch chosen by membership in
categorical_features. -/
def comparisonStatsFor (cols : List String) (ds : List Row) (f : String) :
    Option FeatureStats :=
  if cols.contains f then
    some { ckd := statsOfVals (categorical_features.contains f) (partitionVals ds 1 f),
           notckd := statsOfVals (categorical_features.contains f) (partitionVals ds 0 f) }
  else none

/-- The whole comparison_stats dict, keyed by feature in
feature_names order. -/
def comparison_stats (cols : List String) (ds : List Row) :
    List (String × FeatureStats) :=
  feature_names.filterMap (fun f =>
    (comparisonStatsFor cols ds f).map (fun st => (f, st)))

/-- Classifier of the Flask backend: class index and probability row as
functions of the ordered input row. -/
structure FlaskModel where
  predictCls : List ℚ → Nat
  predictProba : List ℚ → List ℚ

/-- Error response (status code, message) returned by the Flask
predict endpoint. -/
structure FlaskErr where
  status : Nat
  msg : String
deriving DecidableEq

/-- Per-feature comparison entry assembled at lines 129-154 of app.py;
std fields are kept squared as elsewhere. -/
structure CompEntry where
  patient_value : ℚ
  ckd_mode : Option ℚ
  notckd_mode : Option ℚ
  ckd_mean : Option ℚ
  ckd_stdSq : Option ℚ
  notckd_mean : Option ℚ
  notckd_stdSq : Option ℚ
  ckd_median : Option ℚ
  notckd_median : Option ℚ
deriving DecidableEq

/-- Successful JSON result of the Flask predict endpoint. -/
structure FlaskResult where
  cls : Nat
  confidence : ℚ
  prediction_text : String
  patient_values : List (String × ℚ)
  comparison_data : List (String × CompEntry)

/-- Value of data[feature] for a request body modelled as an
association list (only read after presence has been checked). -/
def lookupVal (data : List (String × ℚ)) (f : String) : ℚ :=
  (data.lookup f).getD 0

/-- Comparison entry for one feature, when the feature is a key of
comparison_stats: the categorical branch copies the modes, the
continuous branch copies mean, std, median of both classes. -/
def compEntryFor (stats : List (String × FeatureStats)) (pv : ℚ)
    (f : String) : Option CompEntry :=
  match stats.lookup f with
  | none => none
  | some fs =>
    if categorical_features.contains f then
      some { patient_value := pv,
             ckd_mode := fs.ckd.mode, notckd_mode := fs.notckd.mode,
             ckd_mean := none, ckd_stdSq := none,
             notckd_mean := none, notckd_stdSq := none,
             ckd_median := none, notckd_median := none }
    else
      some { patient_value := pv,
             ckd_mode := none, notckd_mode := none,
             ckd_mean := fs.ckd.mean, ckd_stdSq := fs.ckd.stdSq,
             notckd_mean := fs.notckd.mean, notckd_stdSq := fs.notckd.stdSq,
             ckd_median := fs.ckd.median, notckd_median := fs.notckd.median }

/-- Embeds the Flask predict endpoint (lines 94-164 of app.py): a
missing model yields a 500 error; a request body lacking any required
feature yields a 400 error before the model is consulted; otherwise the
model is applied to the ordered feature row, confidence is
predict_proba(row)[prediction], and the comparison data is assembled
from comparison_stats when those are truthy (present and nonempty),
and left empty otherwise. -/
def flask_predict (model : Option FlaskModel)
    (stats : Option (List (String × FeatureStats)))
    (data : List (String × ℚ)) : Except FlaskErr FlaskResult :=
  match model with
  | none => .error { status := 500, msg := "Model not loaded" }
  | some m =>
    if feature_names.all (fun f => (data.lookup f).isSome) then
      let row := feature_names.map (fun f => lookupVal data f)
      let prediction := m.predictCls row
      let probability := (m.predictProba row).getD prediction 0
      let patient_values := feature_names.map (fun f => (f, lookupVal data f))
      let comparison_data :=
        match stats with
        | none => []
        | some s =>
          if s.isEmpty then []
          else feature_names.filterMap (fun f =>
            (compEntryFor s (lookupVal data f) f).map (fun e => (f, e)))
      .ok { cls := prediction, confidence := probability,
            prediction_text := if prediction = 1 then "CKD" else "NO CKD",
            patient_values := patient_values,
            comparison_data := comparison_data }
    else .error { status := 400, msg := "Missing features" }

/-- Modelled from the spec for claim C2 (refinement comparator): the
population standard deviation uses divisor n; its square is the
population variance. -/
def specPopVariance (l : List ℚ) : ℚ :=
  sqDevSum l (pandasMean l) / (l.length : ℚ)

/-- Modelled from the spec for claim C5 (refinement comparator): the
most frequent value with ties broken by the first-encountered value in
the underlying ordering of the data. -/
def specFirstMode (l : List ℚ) : Option ℚ :=
  pyMax (fun x => l.count x) l

/-! Concrete instances used to exercise the definitions. -/

/-- Model voting ckd with probabilities. -/
def mA : SkModel := { predictOut := 1, proba := some [ 0, 1 ] }

/-- Model voting ckd without predict_proba. -/
def mB : SkModel := { predictOut := 1, proba := none }

/-- Model voting notckd with probabilities. -/
def mC : SkModel := { predictOut := 0, proba := some [ 1, 0 ] }

/-- Model voting notckd without predict_proba. -/
def mD : SkModel := { predictOut := 0, proba := none }

/-- Four loaded models producing the tied vote [ckd, ckd, notckd, notckd]. -/
def models4 : List (String × SkModel) :=
  [ ("KNN", mA), ("SVM", mB), ("GradientBoosting", mC), ("HistGradientBoosting", mD) ]

/-- Individual predictions of models4 in model-iteration order. -/
def preds4 : List PredictionResponse := models4.map (fun nm => predictOne nm.2)

/-- Two models that both vote ckd. -/
def preds2 : List PredictionResponse := [ predictOne mA, predictOne mB ]

/-- A single loaded model. -/
def preds1 : List PredictionResponse := [ predictOne mA ]

/-- Reference dataset with hemo values 1..5 in the positive class. -/
def ds5 : List Row :=
  [ { status := "ckd", val := fun f => if f = "hemo" then 1 else 0 },
    { status := "ckd", val := fun f => if f = "hemo" then 2 else 0 },
    { status := "ckd", val := fun f => if f = "hemo" then 3 else 0 },
    { status := "ckd", val := fun f => if f = "hemo" then 4 else 0 },
    { status := "ckd", val := fun f => if f = "hemo" then 5 else 0 } ]

/-- Reference dataset with hemo values 1..5 in the positive class and
10, 20 in the negative class. -/
def ds7 : List Row :=
  [ { status := "ckd", val := fun f => if f = "hemo" then 1 else 0 },
    { status := "ckd", val := fun f => if f = "hemo" then 2 else 0 },
    { status := "ckd", val := fun f => if f = "hemo" then 3 else 0 },
    { status := "ckd", val := fun f => if f = "hemo" then 4 else 0 },
    { status := "ckd", val := fun f => if f = "hemo" then 5 else 0 },
    { status := "notckd", val := fun f => if f = "hemo" then 10 else 0 },
    { status := "notckd", val := fun f => if f = "hemo" then 20 else 0 } ]

/-- Reference dataset whose positive-class dm column is [1, 1, 0, 0]:
the values 1 and 0 are tied for the highest frequency and 1 is the
first encountered. -/
def dsMode : List Row :=
  [ { status := "ckd", val := fun f => if f = "dm" then 1 else 0 },
    { status := "ckd", val := fun f => if f = "dm" then 1 else 0 },
    { status := "ckd", val := fun f => if f = "dm" then 0 else 0 },
    { status := "ckd", val := fun f => if f = "dm" then 0 else 0 } ]

/-- Complete request body holding every required feature. -/
def dataFull : List (String × ℚ) :=
  [ ("hemo", 15), ("sg", 1), ("sc", 1), ("rbcc", 5), ("pcv", 44),
    ("htn", 1), ("dm", 1), ("bp", 80), ("age", 48) ]

/-- Request body lacking the required feature age. -/
def dataMissing : List (String × ℚ) :=
  [ ("hemo", 15), ("sg", 1), ("sc", 1), ("rbcc", 5), ("pcv", 44),
    ("htn", 1), ("dm", 1), ("bp", 80) ]

/-- Concrete Flask classifier. -/
def fmB : FlaskModel :=
  { predictCls := fun _ => 1, predictProba := fun _ => [ 0, 1 ] }

/-! Helper lemmas about the Python max embedding. -/

theorem key_pyMaxStep {α : Type} (key : α → Nat) (a x : α) :
    key (pyMaxStep key a x) = max (key a) (key x) := by
  unfold pyMaxStep
  split
  · next h => exact (max_eq_right (le_of_lt h)).symm
  · next h => exact (max_eq_left (not_lt.mp h)).symm

theorem pyMaxStep_cases {α : Type} (key : α → Nat) (a x : α) :
    pyMaxStep key a x = a ∨ pyMaxStep key a x = x := by
  unfold pyMaxStep
  split
  · exact Or.inr rfl
  · exact Or.inl rfl

theorem foldl_pyMaxStep_mem {α : Type} (key : α → Nat) :
    ∀ (xs : List α) (a : α), xs.foldl (pyMaxStep key) a ∈ a :: xs := by
  intro xs
  induction xs with
  | nil => intro a; simp
  | cons x xs ih =>
    intro a
    rw [List.foldl_cons]
    have h := ih (pyMaxStep key a x)
    rcases List.mem_cons.mp h with h1 | h1
    · rcases pyMaxStep_cases key a x with hc | hc
      · rw [h1, hc]; exact List.mem_cons_self _ _
      · rw [h1, hc]; exact List.mem_cons_of_mem _ (List.mem_cons_self _ _)
    · exact List.mem_cons_of_mem _ (List.mem_cons_of_mem _ h1)

theorem foldl_pyMaxStep_le {α : Type} (key : α → Nat) :
    ∀ (xs : List α) (a y : α), y ∈ a :: xs →
      key y ≤ key (xs.foldl (pyMaxStep key) a) := by
  intro xs
  induction xs with
  | nil =>
    intro a y hy
    rw [List.mem_singleton] at hy
    simp [hy]
  | cons x xs ih =>
    intro a y hy
    rw [List.foldl_cons]
    have hstep : key (pyMaxStep key a x) ≤
        key (xs.foldl (pyMaxStep key) (pyMaxStep key a x)) :=
      ih (pyMaxStep key a x) _ (List.mem_cons_self _ _)
    have ha : key a ≤ key (pyMaxStep key a x) := by
      rw [key_pyMaxStep key a x]; exact le_max_left _ _
    have hx : key x ≤ key (pyMaxStep key a x) := by
      rw [key_pyMaxStep key a x]; exact le_max_right _ _
    rcases List.mem_cons.mp hy with rfl | h1
    · exact le_trans ha hstep
    · rcases List.mem_cons.mp h1 with rfl | h2
      · exact le_trans hx hstep
      · exact ih (pyMaxStep key a x) y (List.mem_cons_of_mem _ h2)

theorem pyMax_eq_some {α : Type} (key : α → Nat) (l : List α) (h : l ≠ []) :
    ∃ c, pyMax key l = some c := by
  cases l with
  | nil => exact absurd rfl h
  | cons x xs => exact ⟨_, rfl⟩

theorem pyMax_mem {α : Type} {key : α → Nat} {l : List α} {c : α}
    (h : pyMax key l = some c) : c ∈ l := by
  cases l with
  | nil => simp [pyMax] at h
  | cons x xs =>
    simp only [pyMax, Option.some.injEq] at h
    exact h ▸ foldl_pyMaxStep_mem key xs x

theorem pyMax_isMax {α : Type} {key : α → Nat} {l : List α} {c : α}
    (h : pyMax key l = some c) : ∀ y ∈ l, key y ≤ key c := by
  cases l with
  | nil => intro y hy; simp at hy
  | cons x xs =>
    simp only [pyMax, Option.some.injEq] at h
    intro y hy
    exact h ▸ foldl_pyMaxStep_le key xs x y hy

/-! Helper lemmas about sums and variance. -/

theorem sqDevSum_cons (x : ℚ) (xs : List ℚ) (c : ℚ) :
    sqDevSum (x :: xs) c = (x - c) ^ 2 + sqDevSum xs c := by
  simp [sqDevSum]

theorem sqDevSum_expand : ∀ (l : List ℚ) (c : ℚ),
    sqDevSum l c =
      (l.map (fun x => x ^ 2)).sum - 2 * c * l.sum + (l.length : ℚ) * c ^ 2
  | [], c => by simp [sqDevSum]
  | x :: xs, c => by
    rw [sqDevSum_cons, sqDevSum_expand xs c, List.map_cons, List.sum_cons,
      List.sum_cons, List.length_cons]
    push_cast
    ring

theorem pandasVar_one_eq (l : List ℚ) (h : 2 ≤ l.length) :
    pandasVar 1 l =
      ((l.length : ℚ) * (l.map (fun x => x ^ 2)).sum - l.sum ^ 2) /
        ((l.length : ℚ) * ((l.length : ℚ) - 1)) := by
  have h2 : (2 : ℚ) ≤ (l.length : ℚ) := by exact_mod_cast h
  have hn : (l.length : ℚ) ≠ 0 := by linarith
  have hn1 : (l.length : ℚ) - 1 ≠ 0 := by
    intro hh
    have : (l.length : ℚ) = 1 := by linarith
    linarith
  unfold pandasVar pandasMean
  rw [sqDevSum_expand]
  push_cast
  field_simp
  ring

/-! Helper lemmas about fold-max and the pandas mode. -/

theorem foldl_max_cases : ∀ (l : List Nat) (a : Nat),
    l.foldl max a = a ∨ l.foldl max a ∈ l := by
  intro l
  induction l with
  | nil => intro a; exact Or.inl rfl
  | cons x xs ih =>
    intro a
    rw [List.foldl_cons]
    rcases ih (max a x) with h | h
    · rw [h]
      rcases le_total a x with hx | hx
      · right; rw [max_eq_right hx]; exact List.mem_cons_self _ _
      · left; rw [max_eq_left hx]
    · right; exact List.mem_cons_of_mem _ h

theorem le_foldl_max : ∀ (l : List Nat) (a : Nat),
    a ≤ l.foldl max a ∧ ∀ y ∈ l, y ≤ l.foldl max a := by
  intro l
  induction l with
  | nil =>
    intro a
    exact ⟨Nat.le_refl _, by intro y hy; simp at hy⟩
  | cons x xs ih =>
    intro a
    rw [List.foldl_cons]
    obtain ⟨h1, h2⟩ := ih (max a x)
    refine ⟨le_trans (le_max_left a x) h1, ?_⟩
    intro y hy
    rcases List.mem_cons.mp hy with rfl | hy2
    · exact le_trans (le_max_right _ _) h1
    · exact h2 y hy2

theorem count_le_maxCount (l : List ℚ) (x : ℚ) (hx : x ∈ l) :
    l.count x ≤ maxCount l := by
  have hxd : x ∈ l.dedup := List.mem_dedup.mpr hx
  have hmem : l.count x ∈ l.dedup.map (fun y => l.count y) :=
    List.mem_map_of_mem _ hxd
  exact (le_foldl_max _ 0).2 _ hmem

theorem maxCount_attained (l : List ℚ) (h : l ≠ []) :
    ∃ x, x ∈ l.dedup ∧ l.count x = maxCount l := by
  have hc := foldl_max_cases (l.dedup.map (fun y => l.count y)) 0
  rw [show (l.dedup.map (fun y => l.count y)).foldl max 0 = maxCount l from rfl] at hc
  rcases hc with h0 | hmem
  · exfalso
    cases l with
    | nil => exact h rfl
    | cons x xs =>
      have hx : 0 < (x :: xs).count x :=
        List.count_pos_iff.mpr (List.mem_cons_self x xs)
      have hle := count_le_maxCount (x :: xs) x (List.mem_cons_self x xs)
      omega
  · rcases List.mem_map.mp hmem with ⟨x, hxd, hcx⟩
    exact ⟨x, hxd, hcx⟩

theorem pandasMode_spec (l : List ℚ) (h : l ≠ []) :
    ∃ m, (pandasMode l).head? = some m ∧ m ∈ l ∧ l.count m = maxCount l ∧
      ∀ x ∈ l, l.count x = maxCount l → m ≤ x := by
  have hperm : (pandasMode l).Perm
      (l.dedup.filter (fun x => l.count x == maxCount l)) :=
    List.perm_insertionSort _ _
  have hsorted : List.Sorted (fun a b : ℚ => a ≤ b) (pandasMode l) :=
    List.sorted_insertionSort _ _
  obtain ⟨x0, hx0d, hx0c⟩ := maxCount_attained l h
  have hx0f : x0 ∈ l.dedup.filter (fun x => l.count x == maxCount l) :=
    List.mem_filter.mpr ⟨hx0d, by simp [hx0c]⟩
  have hne : pandasMode l ≠ [] := by
    intro hnil
    rw [hnil] at hperm
    have hfe := hperm.symm.eq_nil
    rw [hfe] at hx0f
    simp at hx0f
  obtain ⟨m, rest, hm⟩ : ∃ m rest, pandasMode l = m :: rest := by
    cases hpm : pandasMode l with
    | nil => exact absurd hpm hne
    | cons a b => exact ⟨a, b, rfl⟩
  have hmf : m ∈ l.dedup.filter (fun x => l.count x == maxCount l) :=
    hperm.mem_iff.mp (by rw [hm]; exact List.mem_cons_self _ _)
  have hmd := (List.mem_filter.mp hmf).1
  have hmc : l.count m = maxCount l := by
    have := (List.mem_filter.mp hmf).2
    simpa using this
  refine ⟨m, by rw [hm]; rfl, List.mem_dedup.mp hmd, hmc, ?_⟩
  intro x hx hcx
  have hxf : x ∈ l.dedup.filter (fun y => l.count y == maxCount l) :=
    List.mem_filter.mpr ⟨List.mem_dedup.mpr hx, by simp [hcx]⟩
  have hxs : x ∈ pandasMode l := hperm.mem_iff.mpr hxf
  rw [hm] at hxs hsorted
  rcases List.mem_cons.mp hxs with rfl | hxr
  · exact le_refl _
  · exact List.rel_of_sorted_cons hsorted x hxr

theorem dedup_replicate_succ {α : Type} [DecidableEq α] (a : α) :
    ∀ n : Nat, (List.replicate (n + 1) a).dedup = [a]
  | 0 => by simp
  | n + 1 => by
    rw [List.replicate_succ, List.dedup_cons_of_mem (by simp [List.mem_replicate])]
    exact dedup_replicate_succ a n

theorem length_cast_ne_zero {α : Type} (l : List α) (h : l ≠ []) :
    ((l.length : ℚ)) ≠ 0 :=
  Nat.cast_ne_zero.mpr (List.length_pos.mpr h).ne'

/-! Claim theorems. -/

/-- C1 counterexample: four loaded models produce the tied prediction
list [ckd, ckd, notckd, notckd]; the enumeration [notckd, ckd] is a
legitimate iteration order of set(predictions_list), the
first-encountered tied label of the prediction list is ckd, yet the
consensus resolves to notckd. -/
theorem consensus_tiebreak_not_first_encountered :
    ValidSetOrder (preds4.map (fun p => p.prediction)) [ "notckd", "ckd" ] ∧
    pyMax (fun s => (preds4.map (fun p => p.prediction)).count s)
      (preds4.map (fun p => p.prediction)) = some "ckd" ∧
    (consensusOf [ "notckd", "ckd" ] preds4).prediction = some "notckd" ∧
    ("notckd" : String) ≠ "ckd" :=
  ⟨by decide, by decide, by decide, by decide⟩

theorem consensus_label_spec (ord : List String)
    (preds : List PredictionResponse)
    (h1 : ValidSetOrder (preds.map (fun p => p.prediction)) ord)
    (h2 : preds ≠ []) :
    ∃ c, (consensusOf ord preds).prediction = some c ∧
      c ∈ preds.map (fun p => p.prediction) ∧
      ∀ x ∈ preds.map (fun p => p.prediction),
        (preds.map (fun p => p.prediction)).count x ≤
          (preds.map (fun p => p.prediction)).count c := by
  have hlne : preds.map (fun p => p.prediction) ≠ [] := by
    intro hn
    exact h2 (List.map_eq_nil_iff.mp hn)
  have hdne : (preds.map (fun p => p.prediction)).dedup ≠ [] := by
    intro hn
    exact hlne ((List.dedup_eq_nil _).mp hn)
  have hone : ord ≠ [] := by
    intro hn
    rw [hn] at h1
    exact hdne h1.symm.eq_nil
  obtain ⟨c, hc⟩ :=
    pyMax_eq_some (fun s => (preds.map (fun p => p.prediction)).count s) ord hone
  refine ⟨c, hc, ?_, ?_⟩
  · have hcord : c ∈ ord := pyMax_mem hc
    exact List.mem_dedup.mp (h1.mem_iff.mp hcord)
  · intro x hx
    have hxord : x ∈ ord := h1.mem_iff.mpr (List.mem_dedup.mpr hx)
    exact pyMax_isMax hc x hxord

/-- C1 amended: for every non-empty prediction list and every
enumeration order that the set of distinct labels may present, the
consensus label is a label occurring in the prediction list whose vote
count is maximal; which of several tied labels wins is decided by the
unspecified, hash-dependent set enumeration order, not by first
appearance in the prediction list. -/
theorem consensus_majority_has_max_count (ord : List String)
    (preds : List PredictionResponse)
    (h1 : ValidSetOrder (preds.map (fun p => p.prediction)) ord)
    (h2 : preds ≠ []) :
    ∃ c, (consensusOf ord preds).prediction = some c ∧
      c ∈ preds.map (fun p => p.prediction) ∧
      ∀ x ∈ preds.map (fun p => p.prediction),
        (preds.map (fun p => p.prediction)).count x ≤
          (preds.map (fun p => p.prediction)).count c :=
  consensus_label_spec ord preds h1 h2

/-- C1 witness: the amended statement instantiated at the predictions
of models4 with the enumeration order [ckd, notckd]. -/
theorem consensus_majority_has_max_count_witness :
    ∃ c, (consensusOf [ "ckd", "notckd" ] preds4).prediction = some c ∧
      c ∈ preds4.map (fun p => p.prediction) ∧
      ∀ x ∈ preds4.map (fun p => p.prediction),
        (preds4.map (fun p => p.prediction)).count x ≤
          (preds4.map (fun p => p.prediction)).count c :=
  consensus_majority_has_max_count [ "ckd", "notckd" ] preds4
    (by decide) (by decide)

/-- C3: with no classifiers loaded, predict_ensemble fails with the 503
No-models-available error (the spec's InvalidState condition for zero
voters) for every set enumeration order, and never produces a consensus
result. -/
theorem predict_ensemble_empty_fails (ord : List String) :
    predict_ensemble ord [] =
      Except.error { status := 503, detail := "No models available" } := rfl

/-- C4: for every non-empty prediction list the consensus confidence
(the agreement ratio) times the total number of predictions equals the
majority vote count, and the average model confidence times the number
of models equals the sum of all individual confidences: it is the
arithmetic mean over all models, not only the majority ones. -/
theorem consensus_ratio_and_average (ord : List String)
    (preds : List PredictionResponse)
    (h1 : ValidSetOrder (preds.map (fun p => p.prediction)) ord)
    (h2 : preds ≠ []) :
    ∃ c, (consensusOf ord preds).prediction = some c ∧
      (consensusOf ord preds).consensus_confidence * (preds.length : ℚ) =
        ((preds.map (fun p => p.prediction)).count c : ℚ) ∧
      (consensusOf ord preds).average_model_confidence * (preds.length : ℚ) =
        (preds.map (fun p => p.confidence)).sum := by
  obtain ⟨c, hc, _hmem, _hmax⟩ := consensus_label_spec ord preds h1 h2
  have hlen : ((preds.length : ℚ)) ≠ 0 := length_cast_ne_zero preds h2
  refine ⟨c, hc, ?_, ?_⟩
  · simp only [consensusOf] at hc ⊢
    rw [hc, List.length_map]
    exact div_mul_cancel₀ _ hlen
  · simp only [consensusOf]
    rw [List.length_map]
    exact div_mul_cancel₀ _ hlen

/-- C4 witness: the ratio and average equations instantiated at the
predictions of models4. -/
theorem consensus_ratio_and_average_witness :
    ∃ c, (consensusOf [ "ckd", "notckd" ] preds4).prediction = some c ∧
      (consensusOf [ "ckd", "notckd" ] preds4).consensus_confidence *
          (preds4.length : ℚ) =
        ((preds4.map (fun p => p.prediction)).count c : ℚ) ∧
      (consensusOf [ "ckd", "notckd" ] preds4).average_model_confidence *
          (preds4.length : ℚ) =
        (preds4.map (fun p => p.confidence)).sum :=
  consensus_ratio_and_average [ "ckd", "notckd" ] preds4 (by decide) (by decide)

/-- C6: when all predictions of a non-empty list share one label, the
consensus is unanimous and its agreement ratio equals 1; a single
classifier is the special case of a one-element list. -/
theorem consensus_unanimous_of_all_same (ord : List String)
    (preds : List PredictionResponse) (A : String)
    (h1 : ValidSetOrder (preds.map (fun p => p.prediction)) ord)
    (h2 : preds ≠ []) (h3 : ∀ p ∈ preds, p.prediction = A) :
    (consensusOf ord preds).unanimous = true ∧
    (consensusOf ord preds).consensus_confidence = 1 := by
  have hall : ∀ y ∈ preds.map (fun p => p.prediction), y = A := by
    intro y hy
    rcases List.mem_map.mp hy with ⟨p, hp, rfl⟩
    exact h3 p hp
  have hrep : preds.map (fun p => p.prediction) =
      List.replicate (preds.map (fun p => p.prediction)).length A :=
    List.eq_replicate_length.mpr hall
  have hlpos : 0 < (preds.map (fun p => p.prediction)).length := by
    rw [List.length_map]
    exact List.length_pos.mpr h2
  obtain ⟨n, hn⟩ : ∃ n, (preds.map (fun p => p.prediction)).length = n + 1 :=
    ⟨(preds.map (fun p => p.prediction)).length - 1, by omega⟩
  have hded : (preds.map (fun p => p.prediction)).dedup = [A] := by
    rw [hrep, hn]
    exact dedup_replicate_succ A n
  have hord : ord = [A] := List.perm_singleton.mp (by rw [← hded]; exact h1)
  have hpy : pyMax (fun s => (preds.map (fun p => p.prediction)).count s) ord =
      some A := by
    rw [hord]
    rfl
  have hcount : (preds.map (fun p => p.prediction)).count A =
      (preds.map (fun p => p.prediction)).length := by
    conv_lhs => rw [hrep]
    simp [List.count_replicate]
  constructor
  · simp only [consensusOf]
    rw [hpy]
    simp [hcount]
  · simp only [consensusOf]
    rw [hpy]
    simp [hcount]
    exact div_self (length_cast_ne_zero preds h2)

/-- C6 witness: a single classifier voting ckd yields a unanimous
consensus with agreement 1. -/
theorem consensus_unanimous_of_all_same_witness :
    (consensusOf [ "ckd" ] preds1).unanimous = true ∧
    (consensusOf [ "ckd" ] preds1).consensus_confidence = 1 :=
  consensus_unanimous_of_all_same [ "ckd" ] preds1 "ckd"
    (by decide) (by decide) (by decide)

/-- C8: for every non-empty prediction list whose confidences lie in
[0, 1], the consensus confidence (agreement ratio) lies in the
half-open interval (0, 1] and the average model confidence lies in
[0, 1]. -/
theorem consensus_bounds (ord : List String)
    (preds : List PredictionResponse)
    (h1 : ValidSetOrder (preds.map (fun p => p.prediction)) ord)
    (h2 : preds ≠ [])
    (h3 : ∀ p ∈ preds, 0 ≤ p.confidence ∧ p.confidence ≤ 1) :
    0 < (consensusOf ord preds).consensus_confidence ∧
    (consensusOf ord preds).consensus_confidence ≤ 1 ∧
    0 ≤ (consensusOf ord preds).average_model_confidence ∧
    (consensusOf ord preds).average_model_confidence ≤ 1 := by
  obtain ⟨c, hc, hmem, _hmax⟩ := consensus_label_spec ord preds h1 h2
  have hcount_pos : 0 < (preds.map (fun p => p.prediction)).count c :=
    List.count_pos_iff.mpr hmem
  have hcount_le : (preds.map (fun p => p.prediction)).count c ≤
      (preds.map (fun p => p.prediction)).length :=
    List.count_le_length c (preds.map (fun p => p.prediction))
  have hlen_pos : (0 : ℚ) < ((preds.map (fun p => p.prediction)).length : ℚ) := by
    have := List.length_pos.mpr h2
    rw [List.length_map]
    exact_mod_cast this
  have hconf :=
    fun (p : PredictionResponse) (hp : p ∈ preds) => h3 p hp
  refine ⟨?_, ?_, ?_, ?_⟩
  · simp only [consensusOf] at hc ⊢
    rw [hc]
    exact div_pos (by exact_mod_cast hcount_pos) hlen_pos
  · simp only [consensusOf] at hc ⊢
    rw [hc]
    exact (div_le_one hlen_pos).mpr (by exact_mod_cast hcount_le)
  · simp only [consensusOf]
    apply div_nonneg
    · apply List.sum_nonneg
      intro q hq
      rcases List.mem_map.mp hq with ⟨p, hp, rfl⟩
      exact (hconf p hp).1
    · rw [List.length_map]
      exact le_of_lt (by rw [List.length_map] at hlen_pos; exact hlen_pos)
  · simp only [consensusOf]
    apply (div_le_one (by
      rw [List.length_map]
      rw [List.length_map] at hlen_pos
      exact hlen_pos)).mpr
    have hsum : (preds.map (fun p => p.confidence)).sum ≤
        ((preds.map (fun p => p.confidence)).length : ℚ) := by
      have := List.sum_le_card_nsmul (preds.map (fun p => p.confidence)) 1 (by
        intro x hx
        rcases List.mem_map.mp hx with ⟨p, hp, rfl⟩
        exact (hconf p hp).2)
      simpa [nsmul_eq_mul] using this
    exact hsum

/-- C8 witness: the bounds instantiated at the predictions of models4,
whose confidences all lie in [0, 1]. -/
theorem consensus_bounds_witness :
    0 < (consensusOf [ "ckd", "notckd" ] preds4).consensus_confidence ∧
    (consensusOf [ "ckd", "notckd" ] preds4).consensus_confidence ≤ 1 ∧
    0 ≤ (consensusOf [ "ckd", "notckd" ] preds4).average_model_confidence ∧
    (consensusOf [ "ckd", "notckd" ] preds4).average_model_confidence ≤ 1 :=
  consensus_bounds [ "ckd", "notckd" ] preds4 (by decide) (by decide) (by decide)

/-- C10: a loaded classifier without predict_proba yields probability
None and confidence exactly 1 from the single-model predict operation,
and appending its prediction to an ensemble list raises the sum of
confidences entering the ensemble average by exactly 1. -/
theorem predict_without_proba (m : SkModel) (ps : List PredictionResponse)
    (h : m.proba = none) :
    (predictOne m).probability = none ∧ (predictOne m).confidence = 1 ∧
    ((ps ++ [ predictOne m ]).map (fun p => p.confidence)).sum =
      (ps.map (fun p => p.confidence)).sum + 1 := by
  refine ⟨?_, ?_, ?_⟩ <;> simp [predictOne, h]

/-- C10 witness: the label-only model mD instantiates the statement
with the two probabilistic predictions of preds2 ahead of it. -/
theorem predict_without_proba_witness :
    (predictOne mD).probability = none ∧ (predictOne mD).confidence = 1 ∧
    ((preds2 ++ [ predictOne mD ]).map (fun p => p.confidence)).sum =
      (preds2.map (fun p => p.confidence)).sum + 1 :=
  predict_without_proba mD preds2 (by decide)

/-- C2 counterexample: for a reference dataset whose positive-class
hemo values are [1, 2, 3, 4, 5], the std stored by the code has square
5/2 (std about 1.58, matching the spec's own numeric example), while
the population standard deviation with divisor n has square 2 (std
about 1.41); the squares differ, hence so do the standard
deviations. -/
theorem comparison_std_not_population :
    (comparisonStatsFor feature_names ds5 "hemo").map (fun st => st.ckd.stdSq) =
      some (some (5 / 2)) ∧
    specPopVariance (partitionVals ds5 1 "hemo") = 2 ∧
    ((5 : ℚ) / 2 ≠ 2) ∧
    ((158 : ℚ) / 100) ^ 2 < 5 / 2 ∧ ((5 : ℚ) / 2) < ((159 : ℚ) / 100) ^ 2 := by
  have hvals : partitionVals ds5 1 "hemo" = [ 1, 2, 3, 4, 5 ] := by decide
  have hfs : comparisonStatsFor feature_names ds5 "hemo" =
      some { ckd := statsOfVals false (partitionVals ds5 1 "hemo"),
             notckd := statsOfVals false (partitionVals ds5 0 "hemo") } := rfl
  refine ⟨?_, ?_, by norm_num, by norm_num, by norm_num⟩
  · rw [hfs, hvals]
    norm_num [statsOfVals, pandasStdSq, pandasVar, sqDevSum, pandasMean]
  · rw [hvals]
    norm_num [specPopVariance, sqDevSum, pandasMean]

/-- C2 amended: for every continuous feature among the dataset columns
and each diagnosis partition with at least two records, the std field
of the comparison statistics is the sample standard deviation with
divisor n - 1, whose square equals
(n * sum of squares - (sum)^2) / (n * (n - 1)); the mean, median, min
and max fields are reported alongside (and on values [1,2,3,4,5] this
std is about 1.58, as in the spec's example, not the population value
about 1.41). -/
theorem comparison_std_is_sample (cols : List String) (ds : List Row)
    (f : String)
    (hcol : cols.contains f = true)
    (hcat : categorical_features.contains f = false)
    (hn1 : 2 ≤ (partitionVals ds 1 f).length)
    (hn0 : 2 ≤ (partitionVals ds 0 f).length) :
    ∃ st, comparisonStatsFor cols ds f = some st ∧
      st.ckd.stdSq = some
        ((((partitionVals ds 1 f).length : ℚ) *
            ((partitionVals ds 1 f).map (fun x => x ^ 2)).sum -
          (partitionVals ds 1 f).sum ^ 2) /
        (((partitionVals ds 1 f).length : ℚ) *
          (((partitionVals ds 1 f).length : ℚ) - 1))) ∧
      st.notckd.stdSq = some
        ((((partitionVals ds 0 f).length : ℚ) *
            ((partitionVals ds 0 f).map (fun x => x ^ 2)).sum -
          (partitionVals ds 0 f).sum ^ 2) /
        (((partitionVals ds 0 f).length : ℚ) *
          (((partitionVals ds 0 f).length : ℚ) - 1))) ∧
      st.ckd.mean = some
        ((partitionVals ds 1 f).sum / ((partitionVals ds 1 f).length : ℚ)) ∧
      st.notckd.mean = some
        ((partitionVals ds 0 f).sum / ((partitionVals ds 0 f).length : ℚ)) ∧
      st.ckd.median = some (pandasMedian (partitionVals ds 1 f)) ∧
      st.ckd.vmin = seriesMin (partitionVals ds 1 f) ∧
      st.ckd.vmax = seriesMax (partitionVals ds 1 f) ∧
      st.ckd.mode = none := by
  have hcolm : f ∈ cols := by simpa using hcol
  have hfs : comparisonStatsFor cols ds f =
      some { ckd := statsOfVals (categorical_features.contains f)
               (partitionVals ds 1 f),
             notckd := statsOfVals (categorical_features.contains f)
               (partitionVals ds 0 f) } := by
    simp [comparisonStatsFor, hcolm]
  rw [hcat] at hfs
  refine ⟨_, hfs, ?_, ?_, ?_, ?_, ?_, ?_, ?_, ?_⟩
  · simp only [statsOfVals, if_neg Bool.false_ne_true]
    rw [show pandasStdSq (partitionVals ds 1 f) =
        pandasVar 1 (partitionVals ds 1 f) from rfl,
      pandasVar_one_eq _ hn1]
  · simp only [statsOfVals, if_neg Bool.false_ne_true]
    rw [show pandasStdSq (partitionVals ds 0 f) =
        pandasVar 1 (partitionVals ds 0 f) from rfl,
      pandasVar_one_eq _ hn0]
  · simp [statsOfVals, pandasMean]
  · simp [statsOfVals, pandasMean]
  · simp [statsOfVals]
  · simp [statsOfVals]
  · simp [statsOfVals]
  · simp [statsOfVals]

/-- C2 witness: the amended statement instantiated at the feature hemo
of the dataset ds7, whose partitions hold [1,2,3,4,5] and [10,20]. -/
theorem comparison_std_is_sample_witness :
    ∃ st, comparisonStatsFor feature_names ds7 "hemo" = some st ∧
      st.ckd.stdSq = some
        ((((partitionVals ds7 1 "hemo").length : ℚ) *
            ((partitionVals ds7 1 "hemo").map (fun x => x ^ 2)).sum -
          (partitionVals ds7 1 "hemo").sum ^ 2) /
        (((partitionVals ds7 1 "hemo").length : ℚ) *
          (((partitionVals ds7 1 "hemo").length : ℚ) - 1))) ∧
      st.notckd.stdSq = some
        ((((partitionVals ds7 0 "hemo").length : ℚ) *
            ((partitionVals ds7 0 "hemo").map (fun x => x ^ 2)).sum -
          (partitionVals ds7 0 "hemo").sum ^ 2) /
        (((partitionVals ds7 0 "hemo").length : ℚ) *
          (((partitionVals ds7 0 "hemo").length : ℚ) - 1))) ∧
      st.ckd.mean = some
        ((partitionVals ds7 1 "hemo").sum /
          ((partitionVals ds7 1 "hemo").length : ℚ)) ∧
      st.notckd.mean = some
        ((partitionVals ds7 0 "hemo").sum /
          ((partitionVals ds7 0 "hemo").length : ℚ)) ∧
      st.ckd.median = some (pandasMedian (partitionVals ds7 1 "hemo")) ∧
      st.ckd.vmin = seriesMin (partitionVals ds7 1 "hemo") ∧
      st.ckd.vmax = seriesMax (partitionVals ds7 1 "hemo") ∧
      st.ckd.mode = none :=
  comparison_std_is_sample feature_names ds7 "hemo"
    (by decide) (by decide) (by decide) (by decide)

/-- C5 counterexample: for a reference dataset whose positive-class dm
column is [1, 1, 0, 0], the values 1 and 0 are tied for the highest
frequency and 1 is encountered first, yet the stored mode is 0: pandas
mode() returns the tied values in ascending order and iloc[0] picks the
smallest, not the first-encountered one. -/
theorem comparison_mode_not_first_encountered :
    (comparisonStatsFor feature_names dsMode "dm").map (fun st => st.ckd.mode) =
      some (some 0) ∧
    specFirstMode (partitionVals dsMode 1 "dm") = some 1 ∧
    ((0 : ℚ) ≠ 1) :=
  ⟨by decide, by decide, by decide⟩

/-- C5 amended: for every categorical feature among the dataset columns
whose positive partition is non-empty, the mode field holds a most
frequent value of that partition; when several values are tied for the
highest frequency the stored mode is the smallest tied value (pandas
mode returns the tied values in ascending order and the code takes the
first), not the first-encountered one. -/
theorem comparison_mode_smallest_tied (cols : List String) (ds : List Row)
    (f : String)
    (hcol : cols.contains f = true)
    (hcat : categorical_features.contains f = true)
    (hne : partitionVals ds 1 f ≠ []) :
    ∃ st m, comparisonStatsFor cols ds f = some st ∧ st.ckd.mode = some m ∧
      m ∈ partitionVals ds 1 f ∧
      (∀ x ∈ partitionVals ds 1 f,
        (partitionVals ds 1 f).count x ≤ (partitionVals ds 1 f).count m) ∧
      (∀ x ∈ partitionVals ds 1 f,
        (partitionVals ds 1 f).count x = (partitionVals ds 1 f).count m →
          m ≤ x) := by
  obtain ⟨m, hhead, hmem, hcnt, hmin⟩ := pandasMode_spec (partitionVals ds 1 f) hne
  have hcolm : f ∈ cols := by simpa using hcol
  refine ⟨{ ckd := statsOfVals (categorical_features.contains f) (partitionVals ds 1 f),
            notckd := statsOfVals (categorical_features.contains f) (partitionVals ds 0 f) },
          m, by simp [comparisonStatsFor, hcolm], ?_, hmem, ?_, ?_⟩
  · rw [hcat]
    simp only [statsOfVals, if_pos rfl]
    exact hhead
  · intro x hx
    rw [hcnt]
    exact count_le_maxCount _ x hx
  · intro x hx hcx
    exact hmin x hx (by rw [hcx, hcnt])

/-- C5 witness: the amended statement instantiated at the categorical
feature dm of the dataset dsMode. -/
theorem comparison_mode_smallest_tied_witness :
    ∃ st m, comparisonStatsFor feature_names dsMode "dm" = some st ∧
      st.ckd.mode = some m ∧
      m ∈ partitionVals dsMode 1 "dm" ∧
      (∀ x ∈ partitionVals dsMode 1 "dm",
        (partitionVals dsMode 1 "dm").count x ≤
          (partitionVals dsMode 1 "dm").count m) ∧
      (∀ x ∈ partitionVals dsMode 1 "dm",
        (partitionVals dsMode 1 "dm").count x =
            (partitionVals dsMode 1 "dm").count m →
          m ≤ x) :=
  comparison_mode_smallest_tied feature_names dsMode "dm"
    (by decide) (by decide) (by decide)

/-- C7: when the reference comparison statistics are unavailable, a
prediction request holding every required feature still succeeds and
returns the predicted class, its text label and the confidence, with
the per-feature comparison data empty rather than the request
failing. -/
theorem flask_predict_stats_unavailable (m : FlaskModel)
    (data : List (String × ℚ))
    (h : feature_names.all (fun f => (data.lookup f).isSome) = true) :
    flask_predict (some m) none data =
      Except.ok
        { cls := m.predictCls (feature_names.map (fun f => lookupVal data f)),
          confidence :=
            (m.predictProba (feature_names.map (fun f => lookupVal data f))).getD
              (m.predictCls (feature_names.map (fun f => lookupVal data f))) 0,
          prediction_text :=
            if m.predictCls (feature_names.map (fun f => lookupVal data f)) = 1
            then "CKD" else "NO CKD",
          patient_values := feature_names.map (fun f => (f, lookupVal data f)),
          comparison_data := [] } := by
  simp [flask_predict, h]

/-- C7 witness: the graceful degradation instantiated at the complete
request dataFull and the classifier fmB. -/
theorem flask_predict_stats_unavailable_witness :
    flask_predict (some fmB) none dataFull =
      Except.ok
        { cls := fmB.predictCls (feature_names.map (fun f => lookupVal dataFull f)),
          confidence :=
            (fmB.predictProba (feature_names.map (fun f => lookupVal dataFull f))).getD
              (fmB.predictCls (feature_names.map (fun f => lookupVal dataFull f))) 0,
          prediction_text :=
            if fmB.predictCls (feature_names.map (fun f => lookupVal dataFull f)) = 1
            then "CKD" else "NO CKD",
          patient_values := feature_names.map (fun f => (f, lookupVal dataFull f)),
          comparison_data := [] } :=
  flask_predict_stats_unavailable fmB dataFull (by decide)

/-- C9: a request body lacking at least one required feature is
rejected with the 400 Missing-features client error for every loaded
classifier and every state of the comparison statistics: the result
does not depend on the classifier, so no call to the model occurs and
no prediction result is produced. -/
theorem flask_predict_missing_feature (data : List (String × ℚ))
    (m : FlaskModel) (stats : Option (List (String × FeatureStats)))
    (hmiss : ∃ f ∈ feature_names, data.lookup f = none) :
    flask_predict (some m) stats data =
      Except.error { status := 400, msg := "Missing features" } := by
  have hall : feature_names.all (fun f => (data.lookup f).isSome) = false := by
    apply List.all_eq_false.mpr
    rcases hmiss with ⟨f, hf, hnone⟩
    exact ⟨f, hf, by simp [hnone]⟩
  simp [flask_predict, hall]

/-- C9 witness: the request dataMissing, which lacks age, is rejected
with the 400 error for the classifier fmB with statistics present. -/
theorem flask_predict_missing_feature_witness :
    flask_predict (some fmB) (some (comparison_stats feature_names ds7))
        dataMissing =
      Except.error { status := 400, msg := "Missing features" } :=
  flask_predict_missing_feature dataMissing fmB
    (some (comparison_stats feature_names ds7)) (by decide)

end CKD
